import Mathlib

/-!
Verification of the portfolio web application: project-list merging and
filtering (app/main.py), the GitHub repository client (app/services/github.py),
the contact log (app/local_data.py), the contact form handler and email relay
(app/main.py, app/services/email.py), and the resume locale loading
(app/services/pdf.py).

Python dictionary fields are modelled as `Option (Option α)`: the outer
`Option` records whether the key is present, the inner one whether the value
is JSON null (Python `None`). Operations that can raise a Python exception
return `Except`.
-/

/-- The value of a nullable string field of a Python dict: `none` models
Python `None` (JSON null). -/
abbrev PyStr := Option String

/-- dict.get(key, default) for a string-valued key: the default is used only
when the key is absent, not when it is present with value `None`. -/
def pyGet (field : Option PyStr) (default : String) : PyStr :=
  match field with
  | none => some default
  | some v => v

/-- dict.get(key, default) for an integer-valued key. -/
def pyGetInt (field : Option (Option Int)) (default : Int) : Option Int :=
  match field with
  | none => some default
  | some v => v

/-- str.lower() on the character sequence (ASCII case mapping). -/
def strLower (s : String) : String :=
  String.mk (s.data.map Char.toLower)

/-- value.lower(): succeeds on a string, raises AttributeError on `None`. -/
def pyLower : PyStr → Except Unit String
  | some s => .ok (strLower s)
  | none => .error ()

/-- Python truthiness of an optional string: `None` and the empty string are
falsy. -/
def pyTruthyStr (s : Option String) : Bool :=
  match s with
  | none => false
  | some s => s ≠ ""

/-- Bool-valued infix test on lists: some suffix of hay starts with needle. -/
def listInfixOf (needle : List Char) : List Char → Bool
  | [] => needle.isEmpty
  | c :: rest => List.isPrefixOf needle (c :: rest) || listInfixOf needle rest

/-- The substring test `needle in hay` on Python strings. -/
def strContains (needle hay : String) : Bool :=
  listInfixOf needle.toList hay.toList

/-- A project record as handed to the templates: the dict built by
GitHubService.get_repositories, or a record of the local projects.json file.
Every field is optional (local records carry whatever keys the file has) and
nullable. -/
structure ProjRecord where
  name : Option PyStr := none
  description : Option PyStr := none
  github_url : Option PyStr := none
  demo_url : Option PyStr := none
  technologies : Option PyStr := none
  stars : Option (Option Int) := none
  language : Option PyStr := none
  updated_at : Option PyStr := none
  source : Option PyStr := none
deriving DecidableEq, Repr

/-- The filter predicate of app/main.py lines 74-75 and 168-169:
search.lower() in project.get('name', '').lower() or
search.lower() in project.get('description', '').lower().
Python `or` short-circuits, so the description is lowered only when the name
did not match; lowering a `None` value raises. -/
def matchesSearch (search : String) (project : ProjRecord) : Except Unit Bool :=
  match pyLower (pyGet project.name "") with
  | .error e => .error e
  | .ok n =>
    if strContains (strLower search) n then .ok true
    else
      match pyLower (pyGet project.description "") with
      | .error e => .error e
      | .ok d => .ok (strContains (strLower search) d)

/-- The list comprehension of app/main.py lines 72-76: keep the projects whose
name or description contains the search term, propagating any exception. -/
def filterProjectsE (search : String) : List ProjRecord → Except Unit (List ProjRecord)
  | [] => .ok []
  | p :: rest =>
    match matchesSearch search p with
    | .error e => .error e
    | .ok b =>
      match filterProjectsE search rest with
      | .error e => .error e
      | .ok rs => .ok (if b then p :: rs else rs)

/-- The projects route handler (app/main.py, `projects`), abstracted over the
already-fetched GitHub records and the local records: concatenate the two
lists and, when the search parameter is truthy, apply the filter. -/
def projects (search : Option String) (github_repos local_projects : List ProjRecord) :
    Except Unit (List ProjRecord) :=
  let all_projects := github_repos ++ local_projects
  if pyTruthyStr search then
    filterProjectsE (search.getD "") all_projects
  else
    .ok all_projects

/-- The HTMX search route handler (app/main.py, `htmx_projects_search`):
identical merging and filtering with query parameter q (default ""). -/
def htmx_projects_search (q : String) (github_repos local_projects : List ProjRecord) :
    Except Unit (List ProjRecord) :=
  let all_projects := github_repos ++ local_projects
  if q ≠ "" then
    filterProjectsE q all_projects
  else
    .ok all_projects

/-- A repository record as returned by the GitHub list-repositories API.
Bracket-indexed keys (name, html_url) are required; the rest are read with
.get and may be absent or null. -/
structure RawRepo where
  name : String
  html_url : String
  description : Option PyStr := none
  homepage : Option PyStr := none
  stargazers_count : Option (Option Int) := none
  language : Option PyStr := none
  updated_at : Option PyStr := none
  topics : Option (Option (List String)) := none
  fork : Option Bool := none
deriving DecidableEq, Repr

/-- GitHubService._extract_technologies: the primary language (when truthy)
followed by the topics (when truthy), joined with ", ". -/
def extract_technologies (repo : RawRepo) : String :=
  let techs : List String :=
    match repo.language with
    | some (some s) => if s = "" then [] else [s]
    | _ => []
  let techs :=
    match repo.topics with
    | some (some ts) => if ts.isEmpty then techs else techs ++ ts
    | _ => techs
  String.intercalate ", " techs

/-- The formatted_repo dict literal of app/services/github.py lines 46-56. -/
def formatRepo (repo : RawRepo) : ProjRecord where
  name := some (some repo.name)
  description := some (pyGet repo.description "")
  github_url := some (some repo.html_url)
  demo_url := some
    (match repo.homepage with
     | some (some s) => if s = "" then none else some s
     | _ => none)
  technologies := some (some (extract_technologies repo))
  stars := some (pyGetInt repo.stargazers_count 0)
  language := some (pyGet repo.language "")
  updated_at := some (pyGet repo.updated_at "")
  source := some (some "github")

/-- The formatting loop of get_repositories: skip every repo whose fork field
is truthy, format the rest in order. -/
def formatRepos : List RawRepo → List ProjRecord
  | [] => []
  | repo :: rest =>
    if repo.fork.getD false then
      formatRepos rest
    else
      formatRepo repo :: formatRepos rest

/-- GitHubService.get_repositories, abstracted over the HTTP fetch outcome:
an unset username yields [], any exception from the request, the status check
or JSON decoding is caught and yields [], otherwise the fetched repositories
are formatted. -/
def get_repositories (username : Option String) (fetch : Except Unit (List RawRepo)) :
    List ProjRecord :=
  if pyTruthyStr username then
    match fetch with
    | .ok repos => formatRepos repos
    | .error _ => []
  else
    []

/-- A contact form submission as stored in contacts.json. -/
structure ContactRecord where
  name : String
  email : String
  message : String
deriving DecidableEq, Repr

/-- local_data.save_contact: read the contacts file when it exists (else start
from []), append the new record, write the array back. The result is the new
file contents. -/
def save_contact (fileContents : Option (List ContactRecord))
    (name email message : String) : List ContactRecord :=
  let contacts := fileContents.getD []
  contacts ++ [{ name := name, email := email, message := message }]

/-- The SMTP settings of EmailService (from app/config.py). -/
structure EmailConfig where
  smtp_host : String
  smtp_port : Nat
  smtp_username : Option String
  smtp_password : Option String
  contact_email : Option String
deriving DecidableEq, Repr

/-- EmailService._is_mailhog. -/
def is_mailhog (c : EmailConfig) : Bool :=
  (strLower c.smtp_host = "mailhog" || strLower c.smtp_host = "localhost") &&
    c.smtp_port = 1025

/-- EmailService.send_contact_email, abstracted over whether the actual SMTP
send succeeds: returns False on incomplete configuration or any caught send
exception, True only when the message was relayed. -/
def send_contact_email (c : EmailConfig) (smtpSendOk : Bool)
    (name email message : String) : Bool :=
  if !is_mailhog c &&
      !(pyTruthyStr c.smtp_username && pyTruthyStr c.smtp_password &&
        pyTruthyStr c.contact_email) then
    false
  else if !pyTruthyStr c.contact_email then
    false
  else
    let _ := (name, email, message)
    smtpSendOk

/-- The response of the POST /contact handler. -/
inductive ContactResponse where
  | success
  | error (msg : String)
deriving DecidableEq, Repr

/-- The POST /contact handler (app/main.py, contact_submit), abstracted over
the outcome of save_contact (which may raise) and of send_contact_email
(which may raise, and otherwise returns a Bool that the handler discards):
any raised exception yields the error template, otherwise the success
template. -/
def contact_submit (saveResult : Except String Unit)
    (emailResult : Except String Bool) : ContactResponse :=
  match saveResult with
  | .error e => .error e
  | .ok _ =>
    match emailResult with
    | .error e => .error e
    | .ok _ => .success

/-- A resume locale document (static/locales/{lang}.json) that parses into the
shape the transformation reads: the five entries it indexes. The subtrees are
kept abstract in α. -/
structure LocaleData (α : Type) where
  personal : α
  summary : α
  company : α
  roles : α
  education : α
deriving DecidableEq, Repr

/-- The English skills dict hard-coded in _transform_locale_data. -/
def enSkills : List (String × List String) :=
  [("Programming Languages", ["Python", "Go", "C/C++", "Bash", "SQL"]),
   ("Cloud & Infrastructure", ["AWS", "Kubernetes", "Docker", "Terraform", "Helm"]),
   ("Monitoring & Observability", ["Prometheus", "Grafana", "CloudWatch", "Datadog", "ELK Stack"]),
   ("Data & ML", ["MLOps", "Data Pipelines", "PostgreSQL", "BigQuery", "Scikit-learn"]),
   ("Tools & Methodologies", ["Git", "Linux", "CI/CD", "SLI/SLO", "Incident Response"])]

/-- The Portuguese skills dict hard-coded in _transform_locale_data. -/
def ptSkills : List (String × List String) :=
  [("Linguagens de Programação", ["Python", "Go", "C/C++", "Bash", "SQL"]),
   ("Nuvem e Infraestrutura", ["AWS", "Kubernetes", "Docker", "Terraform", "Helm"]),
   ("Monitoramento e Observabilidade", ["Prometheus", "Grafana", "CloudWatch", "Datadog", "ELK Stack"]),
   ("Dados e ML", ["MLOps", "Pipelines de Dados", "PostgreSQL", "BigQuery", "Scikit-learn"]),
   ("Ferramentas e Metodologias", ["Git", "Linux", "CI/CD", "SLI/SLO", "Resposta a Incidentes"])]

/-- The data handed to the PDF resume template. -/
structure ResumeTemplateData (α : Type) where
  language : String
  personal_info : α
  summary : α
  company : α
  experiences : α
  skills : List (String × List String)
  education : α
deriving DecidableEq, Repr

/-- PDFService._transform_locale_data. -/
def transform_locale_data {α : Type} (data : LocaleData α) (language : String) :
    ResumeTemplateData α :=
  { language := language
    personal_info := data.personal
    summary := data.summary
    company := data.company
    experiences := data.roles
    skills := if language = "en" then enSkills else ptSkills
    education := data.education }

/-- PDFService._get_resume_data, abstracted over loading and parsing the
locale file of each language (FileNotFoundError and every other exception are
handled the same way): a successful load is transformed; on failure a
language other than "en" falls back to the English data, while for "en" the
exception propagates. -/
def get_resume_data {α : Type} (locales : String → Except Unit (LocaleData α))
    (language : String) : Except Unit (ResumeTemplateData α) :=
  match locales language with
  | .ok data => .ok (transform_locale_data data language)
  | .error e =>
    if language = "en" then
      .error e
    else
      match locales "en" with
      | .ok data => .ok (transform_locale_data data "en")
      | .error e => .error e

/-! ## Helper notions and lemmas -/

/-- A project record is clean when its name and description values, if the
keys are present, are actual strings (not JSON null). -/
def cleanRecord (p : ProjRecord) : Prop :=
  p.name ≠ some none ∧ p.description ≠ some none

instance (p : ProjRecord) : Decidable (cleanRecord p) := by
  unfold cleanRecord
  infer_instance

/-- The string a field is matched against by the filter: the value when the
key holds a string, and the empty string when the key is absent. -/
def fieldString (f : Option PyStr) : String :=
  (pyGet f "").getD ""

/-- The filter predicate the spec describes: the lowercased search term is a
substring of the lowercased name or of the lowercased description, absent
keys matching against the empty string. -/
def matchKeyword (search : String) (p : ProjRecord) : Bool :=
  strContains (strLower search) (strLower (fieldString p.name)) ||
  strContains (strLower search) (strLower (fieldString p.description))

/-- A locale loading function with only the English file readable, used to
instantiate the fallback theorems at a concrete input. -/
def enOnlyLocale (s : String) : Except Unit (LocaleData Nat) :=
  if s = "en" then Except.ok ⟨1, 2, 3, 4, 5⟩ else Except.error ()

theorem pyGet_eq_of_ne_null (f : Option PyStr) (h : f ≠ some none) :
    pyGet f "" = some (fieldString f) := by
  rcases f with _ | (_ | s)
  · rfl
  · exact absurd rfl h
  · rfl

theorem matchesSearch_of_clean (search : String) (p : ProjRecord)
    (hc : cleanRecord p) :
    matchesSearch search p = .ok (matchKeyword search p) := by
  obtain ⟨hn, hd⟩ := hc
  unfold matchesSearch matchKeyword
  rw [pyGet_eq_of_ne_null p.name hn, pyGet_eq_of_ne_null p.description hd]
  simp only [pyLower]
  by_cases h : strContains (strLower search) (strLower (fieldString p.name))
  · simp [h]
  · simp [h]

theorem filterProjectsE_of_clean (search : String) :
    ∀ ps : List ProjRecord, (∀ p ∈ ps, cleanRecord p) →
      filterProjectsE search ps = .ok (ps.filter (matchKeyword search)) := by
  intro ps
  induction ps with
  | nil => intro _; rfl
  | cons p rest ih =>
    intro h
    have hp := h p (List.mem_cons_self p rest)
    have hrest := ih (fun x hx => h x (List.mem_cons_of_mem p hx))
    rw [filterProjectsE, matchesSearch_of_clean search p hp, hrest,
      List.filter_cons]

theorem filterProjectsE_sublist (search : String) :
    ∀ (ps rs : List ProjRecord), filterProjectsE search ps = .ok rs →
      rs.Sublist ps := by
  intro ps
  induction ps with
  | nil =>
    intro rs h
    rw [filterProjectsE] at h
    cases h
    exact List.Sublist.refl _
  | cons p rest ih =>
    intro rs h
    rw [filterProjectsE] at h
    cases hb : matchesSearch search p with
    | error e => rw [hb] at h; cases h
    | ok b =>
      rw [hb] at h
      cases hr : filterProjectsE search rest with
      | error e => rw [hr] at h; cases h
      | ok rs' =>
        rw [hr] at h
        cases h
        cases b with
        | true => exact (ih rs' hr).cons₂ p
        | false =>
          simp only [if_neg Bool.false_ne_true]
          exact (ih rs' hr).cons p

/-! ## Claims -/

/-- C10: when the search parameter is absent or empty, both project listing
operations apply no filtering: the result is exactly the merged list of
remote records followed by local records. -/
theorem c10_empty_search_is_identity (g l : List ProjRecord) :
    projects none g l = .ok (g ++ l) ∧
    projects (some "") g l = .ok (g ++ l) ∧
    htmx_projects_search "" g l = .ok (g ++ l) := by
  refine ⟨rfl, ?_, rfl⟩
  simp [projects, pyTruthyStr]

/-- C2: the merged list handed to the filter is exactly the GitHub records in
order followed by the local records in order, any successful result of either
listing operation is a subsequence of that merged list, and without filtering
the result is that merged list itself. -/
theorem c2_merge_order_and_sublist (search : Option String) (q : String)
    (g l rs rs' : List ProjRecord)
    (h : projects search g l = .ok rs)
    (h' : htmx_projects_search q g l = .ok rs') :
    rs.Sublist (g ++ l) ∧ rs'.Sublist (g ++ l) ∧
    (pyTruthyStr search = false → rs = g ++ l) ∧
    (q = "" → rs' = g ++ l) := by
  unfold projects at h
  unfold htmx_projects_search at h'
  constructor
  · by_cases hs : pyTruthyStr search
    · rw [if_pos hs] at h
      exact filterProjectsE_sublist _ _ _ h
    · rw [if_neg hs] at h
      cases h
      exact List.Sublist.refl _
  constructor
  · by_cases hq : q = ""
    · rw [if_neg (by simp [hq])] at h'
      cases h'
      exact List.Sublist.refl _
    · rw [if_pos hq] at h'
      exact filterProjectsE_sublist _ _ _ h'
  constructor
  · intro hs
    rw [if_neg (by simp [hs])] at h
    cases h
    rfl
  · intro hq
    rw [if_neg (by simp [hq])] at h'
    cases h'
    rfl

/-- C1: with a non-empty search term and a merged list whose name and
description values are strings where present (no JSON nulls), both listing
operations succeed and include a record exactly when the lowercased term is a
substring of the lowercased name or of the lowercased description, a missing
key being matched against the empty string. -/
theorem c1_search_membership (search : String) (g l : List ProjRecord)
    (hs : search ≠ "") (hc : ∀ p ∈ g ++ l, cleanRecord p) :
    ∃ rs : List ProjRecord,
      projects (some search) g l = .ok rs ∧
      htmx_projects_search search g l = .ok rs ∧
      ∀ p : ProjRecord, p ∈ rs ↔ p ∈ g ++ l ∧
        (strContains (strLower search) (strLower (fieldString p.name)) = true ∨
         strContains (strLower search) (strLower (fieldString p.description)) = true) := by
  refine ⟨(g ++ l).filter (matchKeyword search), ?_, ?_, ?_⟩
  · unfold projects
    rw [if_pos (by simp [pyTruthyStr, hs])]
    exact filterProjectsE_of_clean search (g ++ l) hc
  · unfold htmx_projects_search
    rw [if_pos hs]
    exact filterProjectsE_of_clean search (g ++ l) hc
  · intro p
    simp only [List.mem_filter, List.mem_append, matchKeyword, Bool.or_eq_true]

/-- Witness for C1 at a concrete search over one GitHub record and two local
records: the term "python" keeps the record named Python-API (name match) and
the record described as python scripts (description match). -/
theorem c1_search_membership_witness :
    ∃ rs : List ProjRecord,
      projects (some "python")
        [{ name := some (some "Python-API"), description := some (some "A server") }]
        [{ name := some (some "frontend") },
         { name := some (some "tool"), description := some (some "python scripts") }]
        = .ok rs ∧
      htmx_projects_search "python"
        [{ name := some (some "Python-API"), description := some (some "A server") }]
        [{ name := some (some "frontend") },
         { name := some (some "tool"), description := some (some "python scripts") }]
        = .ok rs ∧
      ∀ p : ProjRecord, p ∈ rs ↔
        p ∈ ([{ name := some (some "Python-API"), description := some (some "A server") }] ++
          [{ name := some (some "frontend") },
           { name := some (some "tool"), description := some (some "python scripts") }]) ∧
        (strContains (strLower "python") (strLower (fieldString p.name)) = true ∨
         strContains (strLower "python") (strLower (fieldString p.description)) = true) :=
  c1_search_membership "python"
    [{ name := some (some "Python-API"), description := some (some "A server") }]
    [{ name := some (some "frontend") },
     { name := some (some "tool"), description := some (some "python scripts") }]
    (by decide) (by decide)

/-- C5: when the remote fetch fails with any exception, get_repositories
returns the empty list, both listing operations behave exactly as with an
empty remote source, and without a search term the result is exactly the
local records. -/
theorem c5_fetch_failure_uses_locals (u search : Option String) (q : String)
    (l : List ProjRecord) :
    get_repositories u (.error ()) = [] ∧
    projects search (get_repositories u (.error ())) l = projects search [] l ∧
    htmx_projects_search q (get_repositories u (.error ())) l =
      htmx_projects_search q [] l ∧
    projects none (get_repositories u (.error ())) l = .ok l ∧
    htmx_projects_search "" (get_repositories u (.error ())) l = .ok l := by
  have h : get_repositories u (.error ()) = [] := by
    unfold get_repositories
    split <;> rfl
  refine ⟨h, by rw [h], by rw [h], ?_, ?_⟩
  · rw [h]
    simp [projects, pyTruthyStr]
  · rw [h]
    simp [htmx_projects_search]

/-- C6: save_contact writes back exactly the prior array with the new record
appended: the length grows by one, every prior entry keeps its value and
position, and the new record sits at the end. -/
theorem c6_save_contact_appends (prior : List ContactRecord) (n e m : String) :
    save_contact (some prior) n e m =
      prior ++ [{ name := n, email := e, message := m }] ∧
    (save_contact (some prior) n e m).length = prior.length + 1 ∧
    (∀ i : Fin prior.length,
      (save_contact (some prior) n e m)[(i : Nat)]? = prior[(i : Nat)]?) ∧
    (save_contact (some prior) n e m)[prior.length]? =
      some { name := n, email := e, message := m } := by
  refine ⟨rfl, by simp [save_contact], ?_, ?_⟩
  · intro i
    have hi : (i : Nat) < prior.length := i.isLt
    simp [save_contact, List.getElem?_append, hi]
  · simp [save_contact]

theorem formatRepos_eq_filter_map (repos : List RawRepo) :
    formatRepos repos =
      (repos.filter (fun r => !r.fork.getD false)).map formatRepo := by
  induction repos with
  | nil => rfl
  | cons r rest ih =>
    rw [formatRepos, List.filter_cons]
    by_cases h : r.fork.getD false
    · simp [h, ih]
    · simp [h, ih]

/-- C4: with a truthy username and a successful fetch, the returned records
are exactly the formatted non-fork repositories: a record appears in the
result precisely when it formats a fetched repository whose fork field is
absent or false, and the formatted record carries the name, description,
URLs, technologies, stars, language, updated_at and source of that
repository. -/
theorem c4_forks_excluded (username : String) (hu : username ≠ "")
    (repos : List RawRepo) :
    (∀ p : ProjRecord,
      p ∈ get_repositories (some username) (.ok repos) ↔
        ∃ r ∈ repos, (r.fork = none ∨ r.fork = some false) ∧ p = formatRepo r) ∧
    (∀ r : RawRepo,
      (formatRepo r).name = some (some r.name) ∧
      (formatRepo r).description = some (pyGet r.description "") ∧
      (formatRepo r).github_url = some (some r.html_url) ∧
      (formatRepo r).demo_url = some
        (match r.homepage with
         | some (some s) => if s = "" then none else some s
         | _ => none) ∧
      (formatRepo r).technologies = some (some (extract_technologies r)) ∧
      (formatRepo r).stars = some (pyGetInt r.stargazers_count 0) ∧
      (formatRepo r).language = some (pyGet r.language "") ∧
      (formatRepo r).updated_at = some (pyGet r.updated_at "") ∧
      (formatRepo r).source = some (some "github")) := by
  constructor
  · intro p
    have hrepr : get_repositories (some username) (.ok repos) = formatRepos repos := by
      unfold get_repositories
      rw [if_pos (by simp [pyTruthyStr, hu])]
    rw [hrepr, formatRepos_eq_filter_map]
    simp only [List.mem_map, List.mem_filter]
    constructor
    · rintro ⟨r, ⟨hr, hf⟩, rfl⟩
      refine ⟨r, hr, ?_, rfl⟩
      cases hfork : r.fork with
      | none => exact Or.inl rfl
      | some b =>
        cases b with
        | false => exact Or.inr rfl
        | true => rw [hfork] at hf; simp at hf
    · rintro ⟨r, hr, hf, rfl⟩
      refine ⟨r, ⟨hr, ?_⟩, rfl⟩
      rcases hf with h | h <;> simp [h]
  · intro r
    exact ⟨rfl, rfl, rfl, rfl, rfl, rfl, rfl, rfl, rfl⟩

/-- Witness for C4: a non-fork repository is returned by get_repositories. -/
theorem c4_forks_excluded_witness :
    formatRepo { name := "keep", html_url := "https://github.com/u/keep" } ∈
      get_repositories (some "leo")
        (.ok [{ name := "keep", html_url := "https://github.com/u/keep" },
              { name := "skip", html_url := "https://github.com/u/skip",
                fork := some true }]) :=
  ((c4_forks_excluded "leo" (by decide)
      [{ name := "keep", html_url := "https://github.com/u/keep" },
       { name := "skip", html_url := "https://github.com/u/skip",
         fork := some true }]).1
    (formatRepo { name := "keep", html_url := "https://github.com/u/keep" })).mpr
    ⟨{ name := "keep", html_url := "https://github.com/u/keep" },
      by simp, Or.inl rfl, rfl⟩

/-- C3: the claim fails on the code. GitHub serializes a repository without a
description as the key description holding JSON null; dict.get with a string
default does not replace a present null value, so the formatted record keeps
None, and lowering None in the filter raises AttributeError: the filter
evaluation is not total. The projects route errors out on such a repository
when its name does not contain the search term. -/
theorem c3_null_description_raises :
    projects (some "zzz")
      (get_repositories (some "leonardomurakami")
        (.ok [{ name := "myrepo", html_url := "https://github.com/u/myrepo",
                description := some none }]))
      [] = .error () := by
  rfl

/-- C7: the claim fails on the code. With the default SMTP settings and no
contact address configured, send_contact_email reports failure by returning
False, yet contact_submit discards the returned Bool and still renders the
success template. -/
theorem c7_success_despite_failed_relay :
    send_contact_email
        { smtp_host := "smtp.gmail.com", smtp_port := 587, smtp_username := none,
          smtp_password := none, contact_email := none } true
        "Ada" "ada@example.com" "hello" = false ∧
    contact_submit (.ok ())
        (.ok (send_contact_email
          { smtp_host := "smtp.gmail.com", smtp_port := 587, smtp_username := none,
            smtp_password := none, contact_email := none } true
          "Ada" "ada@example.com" "hello")) = .success := by
  exact ⟨rfl, rfl⟩

/-- C7 (amended): the handler returns the success template exactly when
neither the local persist nor the email relay call raised an exception; the
boolean the relay returns is discarded, so success can be rendered after a
reported relay failure. -/
theorem c7_success_iff_no_exception (saveResult : Except String Unit)
    (emailResult : Except String Bool) :
    (contact_submit saveResult emailResult = .success ↔
      saveResult = .ok () ∧ ∃ b, emailResult = .ok b) ∧
    (∀ b : Bool, contact_submit (.ok ()) (.ok b) = .success) := by
  constructor
  · cases saveResult with
    | error e => simp [contact_submit]
    | ok u =>
      cases u
      cases emailResult with
      | error e => simp [contact_submit]
      | ok b => simp [contact_submit]
  · intro b
    rfl

/-- C8: when the locale file of the requested language loads and parses, the
template data is drawn from it: personal_info, summary, company, experiences
and education equal the personal, summary, company, roles and education
entries, and the language field is the requested language. -/
theorem c8_locale_data_used {α : Type}
    (locales : String → Except Unit (LocaleData α)) (language : String)
    (d : LocaleData α) (h : locales language = .ok d) :
    get_resume_data locales language =
      .ok { language := language
            personal_info := d.personal
            summary := d.summary
            company := d.company
            experiences := d.roles
            skills := if language = "en" then enSkills else ptSkills
            education := d.education } := by
  unfold get_resume_data
  rw [h]
  rfl

/-- Witness for C8 at the Portuguese language over numbered locale entries. -/
theorem c8_locale_data_used_witness :
    get_resume_data (fun _ => .ok (⟨1, 2, 3, 4, 5⟩ : LocaleData Nat)) "pt" =
      .ok { language := "pt", personal_info := 1, summary := 2, company := 3,
            experiences := 4, skills := if "pt" = "en" then enSkills else ptSkills,
            education := 5 } :=
  c8_locale_data_used (fun _ => .ok ⟨1, 2, 3, 4, 5⟩) "pt" ⟨1, 2, 3, 4, 5⟩ rfl

/-- C9: when the locale file of a language other than en fails to load, the
resume data falls back to the English locale: the result equals the English
lookup, succeeding with the transformed English data when that loads, and
propagating the error only when the English load fails too. -/
theorem c9_fallback_to_english {α : Type}
    (locales : String → Except Unit (LocaleData α)) (language : String)
    (hne : language ≠ "en") (hfail : locales language = .error ()) :
    get_resume_data locales language = get_resume_data locales "en" ∧
    (∀ d : LocaleData α, locales "en" = .ok d →
      get_resume_data locales language = .ok (transform_locale_data d "en")) ∧
    (locales "en" = .error () → get_resume_data locales language = .error ()) := by
  cases hen : locales "en" with
  | ok d =>
    have hres : get_resume_data locales language = .ok (transform_locale_data d "en") := by
      unfold get_resume_data
      rw [hfail]
      simp [hne, hen]
    have hres' : get_resume_data locales "en" = .ok (transform_locale_data d "en") := by
      unfold get_resume_data
      simp [hen]
    refine ⟨hres.trans hres'.symm, ?_, ?_⟩
    · intro d' hd'
      cases hd'
      exact hres
    · intro hd
      cases hd
  | error e =>
    cases e
    have hres : get_resume_data locales language = .error () := by
      unfold get_resume_data
      rw [hfail]
      simp [hne, hen]
    have hres' : get_resume_data locales "en" = .error () := by
      unfold get_resume_data
      simp [hen]
    refine ⟨hres.trans hres'.symm, ?_, fun _ => hres⟩
    intro d' hd'
    cases hd'

/-- Witness for C9: with only the English locale available, the Portuguese
request falls back to the English data. -/
theorem c9_fallback_to_english_witness :
    get_resume_data enOnlyLocale "pt" = get_resume_data enOnlyLocale "en" ∧
    (∀ d : LocaleData Nat, enOnlyLocale "en" = .ok d →
      get_resume_data enOnlyLocale "pt" = .ok (transform_locale_data d "en")) ∧
    (enOnlyLocale "en" = .error () →
      get_resume_data enOnlyLocale "pt" = .error ()) :=
  c9_fallback_to_english enOnlyLocale "pt" (by decide) rfl

/-- Witness for C2 at a concrete search term over one GitHub record and one
local record: the filtered result is a subsequence of the merged list. -/
theorem c2_merge_order_and_sublist_witness :
    List.Sublist [({ name := some (some "alpha") } : ProjRecord)]
      ([{ name := some (some "alpha") }] ++
        [({ name := some (some "beta") } : ProjRecord)]) ∧
    List.Sublist [({ name := some (some "alpha") } : ProjRecord)]
      ([{ name := some (some "alpha") }] ++
        [({ name := some (some "beta") } : ProjRecord)]) ∧
    (pyTruthyStr (some "alp") = false →
      [({ name := some (some "alpha") } : ProjRecord)] =
        [{ name := some (some "alpha") }] ++
          [({ name := some (some "beta") } : ProjRecord)]) ∧
    ("alp" = "" →
      [({ name := some (some "alpha") } : ProjRecord)] =
        [{ name := some (some "alpha") }] ++
          [({ name := some (some "beta") } : ProjRecord)]) :=
  c2_merge_order_and_sublist (some "alp") "alp"
    [{ name := some (some "alpha") }] [{ name := some (some "beta") }]
    [{ name := some (some "alpha") }] [{ name := some (some "alpha") }]
    (by rfl) (by rfl)
